import Mathlib

/-!
Shallow embedding of the Application lifecycle state machine of
`pkg/cache/application.go` (yunikorn k8shim), together with its
gang-reservation protocol and placeholder-resource aggregation, and
verification of the specification claims about it.

Conventions:
  * Go strings are Lean `String`s; Go maps keyed by strings are association
    lists; the Go `sync.RWMutex` is irrelevant in a sequential model.
  * External side effects (dispatching events, deleting pods, emitting
    recorder events, calling the scheduler API, placeholder cleanup) are
    returned as explicit effect lists.
  * Machine integers (`int32` member counts, `int64` resource values) only
    ever hold small non-negative quantities here and are modelled by `Nat`
    (timeouts, which the code multiplies by 1000, are modelled by `Int` to
    keep the signedness of `int64`).
-/

namespace YuniKorn

/-- The application lifecycle states (`events.States().Application`). -/
inductive AppState
  | New | Submitted | Recovering | Accepted | Reserving | Running
  | Completed | Rejected | Failed | Killing | Killed
  deriving DecidableEq, Fintype, Repr

/-- The application lifecycle event kinds (`events.ApplicationEventType`). -/
inductive AppEventType
  | SubmitApplication | RecoverApplication | AcceptApplication
  | TryReserve | UpdateReservation | RunApplication
  | ReleaseAppAllocation | ReleaseAppAllocationAsk
  | CompleteApplication | RejectApplication | FailApplication
  | KillApplication | KilledApplication
  deriving DecidableEq, Fintype, Repr

/-- Printable state name, as used in error messages of the fsm library. -/
def stateName : AppState → String
  | .New => "New"
  | .Submitted => "Submitted"
  | .Recovering => "Recovering"
  | .Accepted => "Accepted"
  | .Reserving => "Reserving"
  | .Running => "Running"
  | .Completed => "Completed"
  | .Rejected => "Rejected"
  | .Failed => "Failed"
  | .Killing => "Killing"
  | .Killed => "Killed"

/-- Printable event name, as used in error messages of the fsm library. -/
def eventName : AppEventType → String
  | .SubmitApplication => "SubmitApplication"
  | .RecoverApplication => "RecoverApplication"
  | .AcceptApplication => "AcceptApplication"
  | .TryReserve => "TryReserve"
  | .UpdateReservation => "UpdateReservation"
  | .RunApplication => "RunApplication"
  | .ReleaseAppAllocation => "ReleaseAppAllocation"
  | .ReleaseAppAllocationAsk => "ReleaseAppAllocationAsk"
  | .CompleteApplication => "CompleteApplication"
  | .RejectApplication => "RejectApplication"
  | .FailApplication => "FailApplication"
  | .KillApplication => "KillApplication"
  | .KilledApplication => "KilledApplication"

/-- One `fsm.EventDesc` row: event name, legal source states, destination. -/
structure FsmEventDesc where
  name : AppEventType
  src : List AppState
  dst : AppState
  deriving DecidableEq, Repr

/-- The transition rows registered in `NewApplication` (`fsm.Events{...}`),
in source order. -/
def appEvents : List FsmEventDesc :=
  [ ⟨.SubmitApplication, [.New], .Submitted⟩,
    ⟨.RecoverApplication, [.New], .Recovering⟩,
    ⟨.AcceptApplication, [.Submitted, .Recovering], .Accepted⟩,
    ⟨.TryReserve, [.Accepted], .Reserving⟩,
    ⟨.UpdateReservation, [.Reserving], .Reserving⟩,
    ⟨.RunApplication, [.Accepted, .Reserving, .Running], .Running⟩,
    ⟨.ReleaseAppAllocation, [.Running], .Running⟩,
    ⟨.ReleaseAppAllocation, [.Failed], .Failed⟩,
    ⟨.ReleaseAppAllocationAsk, [.Running, .Accepted, .Reserving], .Running⟩,
    ⟨.ReleaseAppAllocationAsk, [.Failed], .Failed⟩,
    ⟨.CompleteApplication, [.Running], .Completed⟩,
    ⟨.RejectApplication, [.Submitted], .Rejected⟩,
    ⟨.FailApplication, [.Submitted, .Rejected, .Accepted, .Running, .Reserving], .Failed⟩,
    ⟨.KillApplication, [.Accepted, .Running, .Reserving], .Killing⟩,
    ⟨.KilledApplication, [.Killing], .Killed⟩ ]

/-- The destination the fsm library associates with `(state, event)`:
the `Dst` of the row whose `Name` is the event and whose `Src` contains the
current state (rows never overlap, so the first match is the only one). -/
def fsmLookup (s : AppState) (e : AppEventType) : Option AppState :=
  (appEvents.find? fun d => d.name == e && d.src.contains s).map (·.dst)

/-- Model of `fsm.FSM.Event`: perform the transition for the current state, returning
the new state and the error the library reports.  A defined transition whose
destination equals the current state fires callbacks but reports the
`NoTransitionError` ("no transition"); an event with no row for the current
state reports an `InvalidEventError` and leaves the state unchanged. -/
def fsmEvent (s : AppState) (e : AppEventType) : AppState × Option String :=
  match fsmLookup s e with
  | some d =>
    if d = s then (s, some "no transition") else (d, none)
  | none =>
    (s, some ("event " ++ eventName e ++ " inappropriate in current state " ++ stateName s))

/-- Model of `Application.handle`: run the fsm event under the application lock and
swallow exactly the "no transition" error (`err.Error() != "no transition"`),
returning any other error to the caller. -/
def handle (s : AppState) (e : AppEventType) : AppState × Option String :=
  let r := fsmEvent s e
  match r.2 with
  | some msg => if msg = "no transition" then (r.1, none) else (r.1, some msg)
  | none => (r.1, none)

/-- Task lifecycle states (`events.States().Task`, external to this core;
only the states the Application logic inspects are distinguished, the
remaining terminal states are listed for completeness). -/
inductive TaskState
  | New | Pending | Scheduling | Allocated | Bound
  | Rejected | Completed | Failed | Killing | Killed
  deriving DecidableEq, Fintype, Repr

/-- A task owned by the Application (the capability surface the Application
uses from `Task`).  `sanityCheckOk` records the outcome of the external
`sanityCheckBeforeScheduling` call for this task. -/
structure Task where
  applicationID : String
  taskID : String
  taskGroupName : String
  placeholder : Bool
  state : TaskState
  allocationUUID : String
  terminationType : String
  createTime : Nat
  sanityCheckOk : Bool
  deriving DecidableEq, Repr

/-- Model of `task.setTaskTerminationType`: record the termination reason. -/
def setTaskTerminationType (t : Task) (termType : String) : Task :=
  { t with terminationType := termType }

/-- A per-member minimum resource vector (`map[string]resource.Quantity`
restricted to the two dimensions the spec discusses): CPU is stored in
milli-units, memory in bytes, exactly as `resource.MustParse` yields them. -/
structure ResQuantity where
  cpuMilli : Nat
  memoryBytes : Nat
  deriving DecidableEq, Repr

/-- An `si.Resource` as built by the resource builder: CPU in milli-units,
memory in whole (mega) units. -/
structure SiResource where
  cpu : Nat
  memory : Nat
  deriving DecidableEq, Repr

/-- Modelled from the spec: `common.GetTGResource` (pkg/common, not under
src/) — "for a task group with minimum-member count m and per-member minimum
resource vector r, the contribution to the aggregate ask is, per resource
dimension, roundUpToWholeUnit(r[dim]) × m"; memory rounds up to a whole unit
(10^6 bytes) before multiplying, CPU is already in milli-units and needs no
rounding. -/
def getTGResource (r : ResQuantity) (members : Nat) : SiResource :=
  { cpu := r.cpuMilli * members,
    memory := ((r.memoryBytes + 999999) / 1000000) * members }

/-- Modelled from the spec: `common.Add` (pkg/common, not under src/) — adds
two `si.Resource`s dimension-wise, treating a nil pointer as zero. -/
def resAdd (a : Option SiResource) (b : SiResource) : SiResource :=
  match a with
  | none => b
  | some x => { cpu := x.cpu + b.cpu, memory := x.memory + b.memory }

/-- A task-group specification (`v1alpha1.TaskGroup`; the node-affinity and
toleration hints play no role in the claims). -/
structure TaskGroup where
  name : String
  minMember : Nat
  minResource : ResQuantity
  deriving DecidableEq, Repr

/-- The Application record (`cache.Application`); the fsm current state is
inlined as a field, the task map is an association list keyed by `taskID`. -/
structure App where
  applicationID : String
  queue : String
  partition : String
  user : String
  taskMap : List Task
  tags : List (String × String)
  taskGroups : List TaskGroup
  placeholderAsk : Option SiResource
  placeholderTimeoutInSec : Int
  state : AppState
  deriving DecidableEq, Repr

/-- Model of `NewApplication`: fresh application in state New, empty task map, no
task groups, nil placeholder ask, default partition, zero timeout. -/
def newApplication (appID queueName user : String) (tags : List (String × String)) : App :=
  { applicationID := appID
    queue := queueName
    partition := "default"
    user := user
    taskMap := []
    tags := tags
    taskGroups := []
    placeholderAsk := none
    placeholderTimeoutInSec := 0
    state := AppState.New }

/-- Model of `setTaskGroups`: replace the stored task-group list and accumulate each
supplied group's contribution onto the running placeholder ask
(`app.placeholderAsk = common.Add(app.placeholderAsk, common.GetTGResource(...))`
for each group of the new list). -/
def setTaskGroups (app : App) (taskGroups : List TaskGroup) : App :=
  { app with
    taskGroups := taskGroups
    placeholderAsk :=
      taskGroups.foldl
        (fun acc tg => some (resAdd acc (getTGResource tg.minResource tg.minMember)))
        app.placeholderAsk }

/-- Model of `getPlaceholderAsk`. -/
def getPlaceholderAsk (app : App) : Option SiResource :=
  app.placeholderAsk

/-- Model of `addTask`: skip adding a duplicate task identifier, otherwise insert. -/
def addTask (app : App) (task : Task) : App :=
  if app.taskMap.any (fun t => t.taskID == task.taskID) then app
  else { app with taskMap := app.taskMap ++ [task] }

/-- Model of `removeTask`: delete the entry; `none` models the not-found error. -/
def removeTask (app : App) (taskID : String) : Option App :=
  if app.taskMap.any (fun t => t.taskID == taskID) then
    some { app with taskMap := app.taskMap.filter (fun t => !(t.taskID == taskID)) }
  else none

/-- Model of `SetPlaceholderTimeout`. -/
def setPlaceholderTimeout (app : App) (timeout : Int) : App :=
  { app with placeholderTimeoutInSec := timeout }

/-- Model of `GetTask`: look the task up by identifier (`none` models the not-found
error). -/
def getTask (app : App) (taskID : String) : Option Task :=
  app.taskMap.find? (fun t => t.taskID == taskID)

/-- Insert a task into a list sorted by ascending creation time. -/
def insertByCreateTime (t : Task) : List Task → List Task
  | [] => [t]
  | u :: us =>
    if t.createTime ≤ u.createTime then t :: u :: us else u :: insertByCreateTime t us

/-- Sort a task list by ascending creation time (the model of
`sort.Slice(taskList, ... createTime.Before ...)`). -/
def sortByCreateTime (l : List Task) : List Task :=
  l.foldr insertByCreateTime []

/-- Model of `getTasks`: the owned tasks currently in the given state, sorted by
creation time. -/
def getTasks (app : App) (s : TaskState) : List Task :=
  sortByCreateTime (app.taskMap.filter (fun t => t.state == s))

/-- Model of `GetNewTasks`. -/
def getNewTasks (app : App) : List Task :=
  getTasks app TaskState.New

/-- One observable action performed by `Schedule` (dispatched events, and the
per-task outcomes of `scheduleTasks`). -/
inductive ScdEffect
  | dispatchSubmit
  | dispatchTryReserve
  | dispatchRun
  | initTask (t : Task)
  | failedSchedulingWarning (t : Task)
  deriving DecidableEq, Repr

/-- Model of `scheduleTasks`: for every new (initial-state) task passing the class
filter, run the sanity precondition check; on success fire the init-task
event for it, on failure emit a FailedScheduling warning against its pod. -/
def scheduleTasks (app : App) (cond : Task → Bool) : List ScdEffect :=
  (getNewTasks app).filterMap fun t =>
    if cond t then
      some (if t.sanityCheckOk then ScdEffect.initTask t
            else ScdEffect.failedSchedulingWarning t)
    else none

/-- Model of `postAppAccepted`: the gang decision.  With one or more task groups and
zero Allocated tasks, a TryReserve event is dispatched (the source dispatches
it inside the branch and then dispatches `ev` once more after it, so it is
dispatched twice); otherwise a single Run event is dispatched. -/
def postAppAccepted (app : App) : List ScdEffect :=
  if app.taskGroups.length ≠ 0 ∧ (getTasks app TaskState.Allocated).length = 0 then
    [ScdEffect.dispatchTryReserve, ScdEffect.dispatchTryReserve]
  else
    [ScdEffect.dispatchRun]

/-- Model of `Schedule`: by current state — New submits, Accepted takes the gang
decision, Reserving advances only placeholder tasks, Running advances only
non-placeholder tasks, every other state is a no-op. -/
def schedule (app : App) : List ScdEffect :=
  match app.state with
  | AppState.New => [ScdEffect.dispatchSubmit]
  | AppState.Accepted => postAppAccepted app
  | AppState.Reserving => scheduleTasks app (fun t => t.placeholder)
  | AppState.Running => scheduleTasks app (fun t => !t.placeholder)
  | _ => []

/-- The tasks `Schedule` attempted to advance (sanity-check and init): those
appearing in a per-task effect. -/
def attemptedTask (effs : List ScdEffect) (t : Task) : Prop :=
  ScdEffect.initTask t ∈ effs ∨ ScdEffect.failedSchedulingWarning t ∈ effs

instance (effs : List ScdEffect) (t : Task) : Decidable (attemptedTask effs t) := by
  unfold attemptedTask; infer_instance

/-- Modelled from the spec: `utils.TaskGroupInstanceCountMap`
(pkg/common/utils, not under src/) — a counter map from task-group name to
instance count, modelled as an association list with unique keys. -/
def CountMap := List (String × Nat)

/-- Modelled from the spec: `TaskGroupInstanceCountMap.Add` / `AddOne` —
add a delta to the named counter, creating it when absent. -/
def cmAdd (m : CountMap) (name : String) (delta : Nat) : CountMap :=
  match m with
  | [] => [(name, delta)]
  | (k, v) :: rest =>
    if k = name then (k, v + delta) :: rest else (k, v) :: cmAdd rest name delta

/-- Counter value for a name (0 when absent). -/
def cmGet (m : CountMap) (name : String) : Nat :=
  match m with
  | [] => 0
  | (k, v) :: rest => if k = name then v else cmGet rest name

/-- Modelled from the spec: `TaskGroupInstanceCountMap.Equals` — "desired
equals actual for every group (exact equality, not at least)": the two maps
have the same number of entries and every entry of the first is matched
exactly by the second. -/
def cmEquals (a b : CountMap) : Bool :=
  a.length == b.length && a.all (fun kv => cmGet b kv.1 == kv.2)

/-- The desired per-group member counts of `onReservationStateChange`:
`tg.MinMember` added per registered task group. -/
def desireCounts (app : App) : CountMap :=
  app.taskGroups.foldl (fun m tg => cmAdd m tg.name tg.minMember) []

/-- The owned placeholder tasks currently in the Bound state (the tasks
`onReservationStateChange` counts). -/
def boundPlaceholders (app : App) : List Task :=
  (getTasks app TaskState.Bound).filter (fun t => t.placeholder)

/-- The actual per-group counts of `onReservationStateChange`: one per owned
placeholder task currently in the Bound state. -/
def actualCounts (app : App) : CountMap :=
  (boundPlaceholders app).foldl (fun m t => cmAdd m t.taskGroupName 1) []

/-- Specification-side reading of the actual counts: the number of owned
Bound placeholder tasks belonging to the named group. -/
def boundPlaceholderCount (app : App) (g : String) : Nat :=
  (boundPlaceholders app).countP (fun t => t.taskGroupName == g)

/-- Specification-side reading of the desired counts: the total
minimum-member count registered under the named group. -/
def desiredMemberSum (app : App) (g : String) : Nat :=
  ((app.taskGroups.filter (fun tg => tg.name == g)).map TaskGroup.minMember).sum

/-- Model of `onReservationStateChange`: dispatch Run exactly when the desired counts
equal the actual counts. -/
def onReservationStateChange (app : App) : List ScdEffect :=
  if cmEquals (desireCounts app) (actualCounts app) then [ScdEffect.dispatchRun] else []

/-- An argument of an application event (`interface{}`): a string or any
non-string value. -/
inductive EventArg
  | str (s : String)
  | other
  deriving DecidableEq, Repr

/-- Modelled from the spec: `events.GetEventArgsAsStrings` (pkg/common/events,
not under src/) — fill an output array of the expected length from the event
arguments, failing when the lengths differ or an argument is not a string. -/
def getEventArgsAsStrings (n : Nat) (args : List EventArg) : Option (List String) :=
  if args.length = n then
    args.mapM fun a => match a with | EventArg.str s => some s | EventArg.other => none
  else none

/-- One observable action performed by an event callback. -/
inductive CbEffect
  | cleanupPlaceholders
  | appFailedWarning (t : Task)
  | deleteTaskPod (taskID : String)
  deriving DecidableEq, Repr

/-- Model of `handleFailApplicationEvent`: the placeholder cleanup is requested (as an
asynchronous goroutine) before the arguments are parsed; when parsing fails
the callback returns with no further side effect, otherwise an
ApplicationFailed warning is emitted against every task still in the New,
Pending or Scheduling state. -/
def handleFailApplicationEvent (app : App) (args : List EventArg) : List CbEffect :=
  CbEffect.cleanupPlaceholders ::
    (match getEventArgsAsStrings 1 args with
     | none => []
     | some _ =>
       (getTasks app TaskState.New ++ getTasks app TaskState.Pending ++
         getTasks app TaskState.Scheduling).map CbEffect.appFailedWarning)

/-- Model of `handleReleaseAppAllocationAskEvent`: parse (taskID, terminationType);
look the task up by identifier; record the termination reason on it; request
pod deletion only when the task is a placeholder (the skip is logged for a
regular task); a missing task only logs.  Returns the updated application
and the effects. -/
def handleReleaseAppAllocationAskEvent (app : App) (args : List EventArg) :
    App × List CbEffect :=
  match getEventArgsAsStrings 2 args with
  | some (taskID :: termType :: _) =>
    match getTask app taskID with
    | some task =>
      ({ app with
          taskMap := app.taskMap.map fun t =>
            if t.taskID == taskID then setTaskTerminationType t termType else t },
       if task.placeholder then [CbEffect.deleteTaskPod taskID] else [])
    | none => (app, [])
  | _ => (app, [])

/-- A "new application" descriptor of a scheduler update request
(`si.AddApplicationRequest`; the placeholder ask field is a nullable
pointer). -/
structure AddApplicationRequest where
  applicationID : String
  queueName : String
  partitionName : String
  user : String
  tags : List (String × String)
  placeholderAsk : Option SiResource
  executionTimeoutMilliSeconds : Int
  deriving DecidableEq, Repr

/-- The update request built by `handleSubmitApplicationEvent`: it carries
the accumulated placeholder ask. -/
def submitRequest (app : App) : AddApplicationRequest :=
  { applicationID := app.applicationID
    queueName := app.queue
    partitionName := app.partition
    user := app.user
    tags := app.tags
    placeholderAsk := app.placeholderAsk
    executionTimeoutMilliSeconds := app.placeholderTimeoutInSec * 1000 }

/-- The update request built by `handleRecoverApplicationEvent`: identical to
the submit request except that no placeholder ask is set (the field stays
nil). -/
def recoverRequest (app : App) : AddApplicationRequest :=
  { applicationID := app.applicationID
    queueName := app.queue
    partitionName := app.partition
    user := app.user
    tags := app.tags
    placeholderAsk := none
    executionTimeoutMilliSeconds := app.placeholderTimeoutInSec * 1000 }

/-- The value of a possibly-nil placeholder ask (nil reads as zero). -/
def askVal (a : Option SiResource) : SiResource :=
  a.getD ⟨0, 0⟩

/-- Dimension-wise order on possibly-nil placeholder asks. -/
def askLe (a b : Option SiResource) : Prop :=
  (askVal a).cpu ≤ (askVal b).cpu ∧ (askVal a).memory ≤ (askVal b).memory

/-- Fixture: a placeholder task still in the initial task state. -/
def tPlaceholderNew : Task :=
  { applicationID := "app01", taskID := "task01", taskGroupName := "gang-group"
    placeholder := true, state := TaskState.New, allocationUUID := ""
    terminationType := "", createTime := 0, sanityCheckOk := true }

/-- Fixture: a placeholder task of the gang group already in Bound state. -/
def tPlaceholderBound : Task :=
  { applicationID := "app01", taskID := "task02", taskGroupName := "gang-group"
    placeholder := true, state := TaskState.Bound, allocationUUID := ""
    terminationType := "", createTime := 1, sanityCheckOk := true }

/-- Fixture: a gang task group with one required member. -/
def tgGang : TaskGroup :=
  { name := "gang-group", minMember := 1, minResource := ⟨100, 1000000⟩ }

/-- Fixture: an application in Reserving owning one new placeholder task. -/
def appReserving : App :=
  { newApplication "app01" "root.q" "test-user" [] with
    state := AppState.Reserving, taskMap := [tPlaceholderNew] }

/-- Fixture: an application in Accepted with a task group and no tasks. -/
def appAcceptedGang : App :=
  { newApplication "app01" "root.q" "test-user" [] with
    state := AppState.Accepted, taskGroups := [tgGang] }

/-- Fixture: an application in Reserving whose single gang group of one
member is matched by one Bound placeholder task. -/
def appReservingBound : App :=
  { newApplication "app01" "root.q" "test-user" [] with
    state := AppState.Reserving, taskGroups := [tgGang]
    taskMap := [tPlaceholderBound] }

/-- The transition table of spec section 4.2, row for row
(event, legal sources, destination).  This is the specification side of the
refinement claim C3; `appEvents` above is the code side. -/
def specTransitionTable : List (AppEventType × List AppState × AppState) :=
  [ (.SubmitApplication, [.New], .Submitted),
    (.RecoverApplication, [.New], .Recovering),
    (.AcceptApplication, [.Submitted, .Recovering], .Accepted),
    (.TryReserve, [.Accepted], .Reserving),
    (.UpdateReservation, [.Reserving], .Reserving),
    (.RunApplication, [.Accepted, .Reserving, .Running], .Running),
    (.ReleaseAppAllocation, [.Running], .Running),
    (.ReleaseAppAllocation, [.Failed], .Failed),
    (.ReleaseAppAllocationAsk, [.Running, .Accepted, .Reserving], .Running),
    (.ReleaseAppAllocationAsk, [.Failed], .Failed),
    (.CompleteApplication, [.Running], .Completed),
    (.RejectApplication, [.Submitted], .Rejected),
    (.FailApplication, [.Submitted, .Rejected, .Accepted, .Running, .Reserving], .Failed),
    (.KillApplication, [.Accepted, .Running, .Reserving], .Killing),
    (.KilledApplication, [.Killing], .Killed) ]

/-- Declared destination for `(state, event)` according to the spec table. -/
def specLookup (s : AppState) (e : AppEventType) : Option AppState :=
  (specTransitionTable.find? fun r => r.1 == e && r.2.1.contains s).map (·.2.2)

theorem mem_insertByCreateTime {x t : Task} {l : List Task} :
    x ∈ insertByCreateTime t l ↔ x = t ∨ x ∈ l := by
  induction l with
  | nil => simp [insertByCreateTime]
  | cons u us ih =>
    by_cases h : t.createTime ≤ u.createTime
    · simp [insertByCreateTime, h]
    · simp [insertByCreateTime, h, ih, or_left_comm]

theorem sortByCreateTime_cons (u : Task) (us : List Task) :
    sortByCreateTime (u :: us) = insertByCreateTime u (sortByCreateTime us) := rfl

theorem mem_sortByCreateTime {x : Task} {l : List Task} :
    x ∈ sortByCreateTime l ↔ x ∈ l := by
  induction l with
  | nil => simp [sortByCreateTime]
  | cons u us ih => rw [sortByCreateTime_cons, mem_insertByCreateTime, ih]; simp

theorem schedule_state_accepted {app : App} (h : app.state = AppState.Accepted) :
    schedule app = postAppAccepted app := by
  unfold schedule; rw [h]

theorem schedule_state_reserving {app : App} (h : app.state = AppState.Reserving) :
    schedule app = scheduleTasks app (fun t => t.placeholder) := by
  unfold schedule; rw [h]

theorem schedule_state_running {app : App} (h : app.state = AppState.Running) :
    schedule app = scheduleTasks app (fun t => !t.placeholder) := by
  unfold schedule; rw [h]

theorem attempted_scheduleTasks {app : App} {cond : Task → Bool} {t : Task}
    (h : attemptedTask (scheduleTasks app cond) t) :
    t ∈ getNewTasks app ∧ cond t = true := by
  rcases h with h | h
  · obtain ⟨a, ha, hfa⟩ := List.mem_filterMap.mp h
    by_cases hc : cond a
    · by_cases hs : a.sanityCheckOk
      · simp [hc, hs] at hfa
        subst hfa
        exact ⟨ha, hc⟩
      · simp [hc, hs] at hfa
    · simp [hc] at hfa
  · obtain ⟨a, ha, hfa⟩ := List.mem_filterMap.mp h
    by_cases hc : cond a
    · by_cases hs : a.sanityCheckOk
      · simp [hc, hs] at hfa
      · simp [hc, hs] at hfa
        subst hfa
        exact ⟨ha, hc⟩
    · simp [hc] at hfa

theorem mem_getNewTasks {app : App} {t : Task} (h : t ∈ getNewTasks app) :
    t.state = TaskState.New := by
  simp only [getNewTasks, getTasks, mem_sortByCreateTime, List.mem_filter,
    beq_iff_eq] at h
  exact h.2

theorem cmGet_cmAdd (m : CountMap) (name : String) (delta : Nat) (g : String) :
    cmGet (cmAdd m name delta) g = cmGet m g + (if g = name then delta else 0) := by
  induction m with
  | nil =>
    by_cases hg : g = name
    · simp [cmAdd, cmGet, hg]
    · simp [cmAdd, cmGet, hg, Ne.symm hg]
  | cons kv rest ih =>
    obtain ⟨k, v⟩ := kv
    by_cases hk : k = name
    · subst hk
      by_cases hg : g = k
      · subst hg; simp [cmAdd, cmGet]
      · simp [cmAdd, cmGet, hg, Ne.symm hg]
    · by_cases hg : g = k
      · have h2 : ¬ g = name := fun h => hk (hg.symm.trans h)
        simp [cmAdd, cmGet, hk, hg.symm, h2]
      · simp [cmAdd, cmGet, hk, Ne.symm hg, hg, ih]

theorem cmGet_foldl_addOne (l : List Task) (m : CountMap) (g : String) :
    cmGet (l.foldl (fun m t => cmAdd m t.taskGroupName 1) m) g =
      cmGet m g + l.countP (fun t => t.taskGroupName == g) := by
  induction l generalizing m with
  | nil => simp
  | cons t ts ih =>
    simp only [List.foldl_cons, ih, cmGet_cmAdd, List.countP_cons]
    by_cases h : t.taskGroupName = g
    · simp [h]; omega
    · have h' : ¬ g = t.taskGroupName := fun hg => h hg.symm
      simp [h, h']

theorem cmGet_foldl_minMember (tgs : List TaskGroup) (m : CountMap) (g : String) :
    cmGet (tgs.foldl (fun m tg => cmAdd m tg.name tg.minMember) m) g =
      cmGet m g + ((tgs.filter (fun tg => tg.name == g)).map TaskGroup.minMember).sum := by
  induction tgs generalizing m with
  | nil => simp
  | cons tg tgs ih =>
    simp only [List.foldl_cons, ih, cmGet_cmAdd, List.filter_cons]
    by_cases h : tg.name = g
    · simp [h]; omega
    · have h' : ¬ g = tg.name := fun hg => h hg.symm
      simp [h, h']

theorem setTaskTerminationType_taskID (t : Task) (x : String) :
    (setTaskTerminationType t x).taskID = t.taskID := rfl

theorem find?_updateTermType (l : List Task) (taskID termType : String) :
    (l.map fun t => if t.taskID == taskID then setTaskTerminationType t termType else t).find?
        (fun t => t.taskID == taskID) =
      (l.find? (fun t => t.taskID == taskID)).map
        (fun t => setTaskTerminationType t termType) := by
  induction l with
  | nil => rfl
  | cons u us ih =>
    by_cases h : u.taskID = taskID
    · have hb : (u.taskID == taskID) = true := by simp [h]
      rw [List.map_cons, if_pos hb, List.find?_cons_of_pos _ (by simp [setTaskTerminationType_taskID, h]),
        List.find?_cons_of_pos _ (by simp [h])]
      rfl
    · have hb : ¬ ((u.taskID == taskID) = true) := by simp [h]
      rw [List.map_cons, if_neg hb, List.find?_cons_of_neg _ (by simp [h]),
        List.find?_cons_of_neg _ (by simp [h])]
      exact ih

theorem askLe_refl (a : Option SiResource) : askLe a a :=
  ⟨le_refl _, le_refl _⟩

theorem askLe_trans {a b c : Option SiResource} (h1 : askLe a b) (h2 : askLe b c) :
    askLe a c :=
  ⟨le_trans h1.1 h2.1, le_trans h1.2 h2.2⟩

theorem askLe_resAdd (a : Option SiResource) (r : SiResource) :
    askLe a (some (resAdd a r)) := by
  cases a <;> simp [askLe, askVal, resAdd]

theorem askLe_foldl (tgs : List TaskGroup) (a : Option SiResource) :
    askLe a
      (tgs.foldl (fun acc tg => some (resAdd acc (getTGResource tg.minResource tg.minMember)))
        a) := by
  induction tgs generalizing a with
  | nil => exact askLe_refl a
  | cons tg tgs ih =>
    exact askLe_trans (askLe_resAdd a (getTGResource tg.minResource tg.minMember)) (ih _)

/-- C3: for every (state, event) pair listed in the transition table of spec
section 4.2, `handle` moves the application to the declared destination state
and returns no error; for every (state, event) pair absent from the table,
`handle` returns a non-nil error and leaves the state unchanged. -/
theorem c3_handle_matches_spec_table :
    ∀ s : AppState, ∀ e : AppEventType,
      (∀ d : AppState, specLookup s e = some d → handle s e = (d, none)) ∧
      (specLookup s e = none → (handle s e).1 = s ∧ (handle s e).2 ≠ none) := by
  decide

/-- Witness for C3 at concrete inputs: (New, Submit) is in the table and moves
to Submitted with no error; (Submitted, Recover) is absent and errors while
staying in Submitted. -/
theorem c3_handle_matches_spec_table_witness :
    handle AppState.New AppEventType.SubmitApplication = (AppState.Submitted, none) ∧
    ((handle AppState.Submitted AppEventType.RecoverApplication).1 = AppState.Submitted ∧
      (handle AppState.Submitted AppEventType.RecoverApplication).2 ≠ none) :=
  ⟨(c3_handle_matches_spec_table AppState.New AppEventType.SubmitApplication).1
      AppState.Submitted (by decide),
   (c3_handle_matches_spec_table AppState.Submitted AppEventType.RecoverApplication).2
      (by decide)⟩

/-- C4 counterexample: Submit while already in Submitted is not legal from
Submitted, yet `handle` returns a non-nil error (naming the event and the
current state) instead of the claimed silent no-op; the state is unchanged. -/
theorem c4_counterexample_submit_twice :
    fsmLookup AppState.Submitted AppEventType.SubmitApplication = none ∧
    (handle AppState.Submitted AppEventType.SubmitApplication).2 ≠ none ∧
    (handle AppState.Submitted AppEventType.SubmitApplication).1 = AppState.Submitted := by
  decide

/-- C4 (amended): an event that is not legal from the current state is a
silent no-op only when the transition table itself maps it back to the
current state (a self-loop row, e.g. Run while Running): then `handle`
returns no error and the state is unchanged.  Every (state, event) pair with
no table row leaves the state unchanged and returns the fsm error naming the
event and the current state. -/
theorem c4_amended_noop_only_for_selfloops :
    ∀ s : AppState, ∀ e : AppEventType,
      (fsmLookup s e = some s → handle s e = (s, none)) ∧
      (fsmLookup s e = none →
        (handle s e).1 = s ∧
        (handle s e).2 =
          some ("event " ++ eventName e ++ " inappropriate in current state " ++ stateName s)) := by
  decide

/-- Witness for C4 (amended) at concrete inputs: Run while Running is a
silent no-op, and Submit while Submitted errors with the naming message. -/
theorem c4_amended_noop_only_for_selfloops_witness :
    handle AppState.Running AppEventType.RunApplication = (AppState.Running, none) ∧
    ((handle AppState.Submitted AppEventType.SubmitApplication).1 = AppState.Submitted ∧
      (handle AppState.Submitted AppEventType.SubmitApplication).2 =
        some ("event " ++ eventName AppEventType.SubmitApplication ++
          " inappropriate in current state " ++ stateName AppState.Submitted)) :=
  ⟨(c4_amended_noop_only_for_selfloops AppState.Running AppEventType.RunApplication).1
      (by decide),
   (c4_amended_noop_only_for_selfloops AppState.Submitted AppEventType.SubmitApplication).2
      (by decide)⟩

/-- C1: a `Schedule` call while the application is in Reserving attempts to
advance (sanity-check and init) only tasks whose placeholder flag is set, and
a call while in Running attempts to advance only tasks whose placeholder flag
is unset; in both cases only tasks still in the initial (New) task state are
considered, so a regular workload task is never advanced while the
application is in Reserving. -/
theorem c1_reserving_advances_only_placeholders (app : App) (t : Task) :
    (app.state = AppState.Reserving → attemptedTask (schedule app) t →
      t.placeholder = true ∧ t.state = TaskState.New) ∧
    (app.state = AppState.Running → attemptedTask (schedule app) t →
      t.placeholder = false ∧ t.state = TaskState.New) := by
  constructor
  · intro hs hat
    rw [schedule_state_reserving hs] at hat
    obtain ⟨hmem, hcond⟩ := attempted_scheduleTasks hat
    exact ⟨hcond, mem_getNewTasks hmem⟩
  · intro hs hat
    rw [schedule_state_running hs] at hat
    obtain ⟨hmem, hcond⟩ := attempted_scheduleTasks hat
    exact ⟨by simpa using hcond, mem_getNewTasks hmem⟩

/-- Witness for C1: a Reserving application owning one new placeholder task
does attempt to advance it, and the theorem yields its flags. -/
theorem c1_reserving_advances_only_placeholders_witness :
    attemptedTask (schedule appReserving) tPlaceholderNew ∧
    (tPlaceholderNew.placeholder = true ∧ tPlaceholderNew.state = TaskState.New) :=
  ⟨by decide,
   (c1_reserving_advances_only_placeholders appReserving tPlaceholderNew).1 rfl (by decide)⟩

/-- C2: for an application in Accepted, `Schedule` dispatches TryReserve
(whose destination is Reserving) exactly when the registered task-group list
is non-empty and the count of owned Allocated tasks is zero; otherwise it
dispatches Run directly, and Run from Accepted reaches Running (so recovery
with an Allocated task skips Reserving). -/
theorem c2_gang_decision (app : App) (h : app.state = AppState.Accepted) :
    (ScdEffect.dispatchTryReserve ∈ schedule app ↔
      (app.taskGroups.length ≠ 0 ∧ (getTasks app TaskState.Allocated).length = 0)) ∧
    (ScdEffect.dispatchRun ∈ schedule app ↔
      ¬(app.taskGroups.length ≠ 0 ∧ (getTasks app TaskState.Allocated).length = 0)) ∧
    fsmLookup AppState.Accepted AppEventType.TryReserve = some AppState.Reserving ∧
    handle AppState.Accepted AppEventType.RunApplication = (AppState.Running, none) := by
  rw [schedule_state_accepted h]
  refine ⟨?_, ?_, by decide, by decide⟩
  · unfold postAppAccepted
    by_cases hc : app.taskGroups.length ≠ 0 ∧ (getTasks app TaskState.Allocated).length = 0
    · rw [if_pos hc]; exact iff_of_true (by simp) hc
    · rw [if_neg hc]; exact iff_of_false (by simp) hc
  · unfold postAppAccepted
    by_cases hc : app.taskGroups.length ≠ 0 ∧ (getTasks app TaskState.Allocated).length = 0
    · rw [if_pos hc]; exact iff_of_false (by simp) (not_not_intro hc)
    · rw [if_neg hc]; exact iff_of_true (by simp) hc

/-- Witness for C2: an Accepted application with one task group and no tasks
dispatches TryReserve and not Run. -/
theorem c2_gang_decision_witness :
    ScdEffect.dispatchTryReserve ∈ schedule appAcceptedGang ∧
    ScdEffect.dispatchRun ∉ schedule appAcceptedGang :=
  ⟨(c2_gang_decision appAcceptedGang rfl).1.mpr (by decide),
   fun hmem => ((c2_gang_decision appAcceptedGang rfl).2.1.mp hmem) (by decide)⟩

/-- C5: for an application in Reserving, the UpdateReservation callback
dispatches Run exactly when the desired count map (minimum members per
registered task group) equals the actual count map (owned Bound placeholder
tasks per group) — exact per-group equality of the two count maps; the maps
read back as the per-group bound-placeholder counts and minimum-member sums,
nothing but the Run dispatch can be produced, and UpdateReservation is only
legal from Reserving. -/
theorem c5_reservation_completion_predicate (app : App) (_h : app.state = AppState.Reserving) :
    (ScdEffect.dispatchRun ∈ onReservationStateChange app ↔
      cmEquals (desireCounts app) (actualCounts app) = true) ∧
    (∀ g : String, cmGet (actualCounts app) g = boundPlaceholderCount app g) ∧
    (∀ g : String, cmGet (desireCounts app) g = desiredMemberSum app g) ∧
    (∀ e ∈ onReservationStateChange app, e = ScdEffect.dispatchRun) ∧
    (∀ s : AppState, fsmLookup s AppEventType.UpdateReservation ≠ none →
      s = AppState.Reserving) := by
  refine ⟨?_, ?_, ?_, ?_, by decide⟩
  · unfold onReservationStateChange
    by_cases hc : cmEquals (desireCounts app) (actualCounts app) = true <;> simp [hc]
  · intro g
    simpa [actualCounts, boundPlaceholderCount, cmGet] using
      cmGet_foldl_addOne (boundPlaceholders app) [] g
  · intro g
    simpa [desireCounts, desiredMemberSum, cmGet] using
      cmGet_foldl_minMember app.taskGroups [] g
  · intro e he
    unfold onReservationStateChange at he
    by_cases hc : cmEquals (desireCounts app) (actualCounts app) = true <;>
      simp [hc] at he
    exact he

/-- Witness for C5: one gang group of one member matched by one Bound
placeholder task makes the count maps equal and Run is dispatched. -/
theorem c5_reservation_completion_predicate_witness :
    cmEquals (desireCounts appReservingBound) (actualCounts appReservingBound) = true ∧
    ScdEffect.dispatchRun ∈ onReservationStateChange appReservingBound :=
  ⟨by decide,
   (c5_reservation_completion_predicate appReservingBound rfl).1.mpr (by decide)⟩

/-- C6: registering the task groups {minMember 10, 500m CPU / 500Mi memory}
and {minMember 20, 1000m CPU / 1000Mi memory} on a fresh application yields
an aggregated placeholder ask of exactly CPU 25000 milli-units and memory
26230 units: each per-member memory quantity is rounded up to a whole unit
before multiplying (500Mi = 524288000 bytes -> 525, times 10 = 5250;
1000Mi = 1048576000 bytes -> 1049, times 20 = 20980). -/
theorem c6_placeholder_ask_rounding_example :
    (524288000 + 999999) / 1000000 = 525 ∧
    (1048576000 + 999999) / 1000000 = 1049 ∧
    getTGResource ⟨500, 524288000⟩ 10 = ⟨5000, 5250⟩ ∧
    getTGResource ⟨1000, 1048576000⟩ 20 = ⟨20000, 20980⟩ ∧
    getPlaceholderAsk
        (setTaskGroups (newApplication "app01" "root.q" "test-user" [])
          [⟨"test-group-1", 10, ⟨500, 524288000⟩⟩,
           ⟨"test-group-2", 20, ⟨1000, 1048576000⟩⟩]) =
      some ⟨25000, 26230⟩ :=
  ⟨rfl, rfl, rfl, rfl, rfl⟩

/-- C7: the placeholder ask is monotonically accumulated: a second call to
the task-group setter adds its groups' contribution on top of the total of
the first call (composing two calls equals one call on the concatenation),
each call only grows the ask, and no other Application operation (adding or
removing a task, setting the timeout, the release-ask handler) ever changes
the ask. -/
theorem c7_ask_monotone_accumulation (app : App) (tgs1 tgs2 : List TaskGroup) :
    (setTaskGroups (setTaskGroups app tgs1) tgs2).placeholderAsk =
      (setTaskGroups app (tgs1 ++ tgs2)).placeholderAsk ∧
    askLe app.placeholderAsk (setTaskGroups app tgs1).placeholderAsk ∧
    (∀ t : Task, (addTask app t).placeholderAsk = app.placeholderAsk) ∧
    (∀ taskID : String, ∀ a' : App, removeTask app taskID = some a' →
      a'.placeholderAsk = app.placeholderAsk) ∧
    (∀ n : Int, (setPlaceholderTimeout app n).placeholderAsk = app.placeholderAsk) ∧
    (∀ args : List EventArg,
      (handleReleaseAppAllocationAskEvent app args).1.placeholderAsk = app.placeholderAsk) := by
  refine ⟨?_, ?_, ?_, ?_, fun n => rfl, ?_⟩
  · simp [setTaskGroups, List.foldl_append]
  · exact askLe_foldl tgs1 app.placeholderAsk
  · intro t
    unfold addTask
    split <;> rfl
  · intro taskID a' hr
    unfold removeTask at hr
    split at hr
    · simp only [Option.some.injEq] at hr
      rw [← hr]
    · exact absurd hr (by simp)
  · intro args
    unfold handleReleaseAppAllocationAskEvent
    rcases hargs : getEventArgsAsStrings 2 args with _ | ⟨_ | ⟨tid, _ | ⟨tt, rest⟩⟩⟩ <;>
      (simp only [hargs]; try rfl)
    rcases hg : getTask app tid with _ | task <;> simp only [hg]

/-- Witness for C7: removing the only task of an application leaves the ask
unchanged, and registering a task group only grows the ask. -/
theorem c7_ask_monotone_accumulation_witness :
    ({ appReserving with taskMap := ([] : List Task) } : App).placeholderAsk =
      appReserving.placeholderAsk ∧
    askLe appReserving.placeholderAsk (setTaskGroups appReserving [tgGang]).placeholderAsk :=
  ⟨(c7_ask_monotone_accumulation appReserving [tgGang] []).2.2.2.1 "task01" _ (by decide),
   (c7_ask_monotone_accumulation appReserving [tgGang] []).2.1⟩

/-- C8: for a ReleaseAllocationAsk event naming an owned task, the handler
records the supplied termination reason on that task and requests deletion of
the task's pod if and only if the task's placeholder flag is set; for an
unknown task identifier nothing is modified. -/
theorem c8_release_ask_deletes_only_placeholders (app : App) (taskID termType : String) :
    (∀ task : Task, getTask app taskID = some task →
      getTask (handleReleaseAppAllocationAskEvent app
          [EventArg.str taskID, EventArg.str termType]).1 taskID =
        some (setTaskTerminationType task termType) ∧
      (CbEffect.deleteTaskPod taskID ∈
        (handleReleaseAppAllocationAskEvent app
          [EventArg.str taskID, EventArg.str termType]).2 ↔ task.placeholder = true)) ∧
    (getTask app taskID = none →
      handleReleaseAppAllocationAskEvent app [EventArg.str taskID, EventArg.str termType] =
        (app, [])) := by
  have hp : getEventArgsAsStrings 2 [EventArg.str taskID, EventArg.str termType] =
      some [taskID, termType] := rfl
  constructor
  · intro task ht
    unfold handleReleaseAppAllocationAskEvent
    simp only [hp, ht]
    constructor
    · unfold getTask at ht ⊢
      rw [find?_updateTermType, ht]
      rfl
    · by_cases hpl : task.placeholder <;> simp [hpl]
  · intro ht
    unfold handleReleaseAppAllocationAskEvent
    simp only [hp, ht]

/-- Witness for C8: releasing the ask of an owned placeholder task records
the reason and requests the pod deletion. -/
theorem c8_release_ask_deletes_only_placeholders_witness :
    getTask appReserving "task01" = some tPlaceholderNew ∧
    (getTask (handleReleaseAppAllocationAskEvent appReserving
        [EventArg.str "task01", EventArg.str "STOPPED_BY_RM"]).1 "task01" =
      some (setTaskTerminationType tPlaceholderNew "STOPPED_BY_RM") ∧
    (CbEffect.deleteTaskPod "task01" ∈
      (handleReleaseAppAllocationAskEvent appReserving
        [EventArg.str "task01", EventArg.str "STOPPED_BY_RM"]).2 ↔
      tPlaceholderNew.placeholder = true)) :=
  ⟨by decide,
   (c8_release_ask_deletes_only_placeholders appReserving "task01" "STOPPED_BY_RM").1
     tPlaceholderNew (by decide)⟩

/-- C9 counterexample: for a Fail event with an unparsable (empty) argument
list the callback still requests placeholder cleanup — the cleanup goroutine
is spawned before the arguments are parsed — refuting the claim that no
placeholder cleanup is requested. -/
theorem c9_counterexample_cleanup_still_requested :
    getEventArgsAsStrings 1 ([] : List EventArg) = none ∧
    CbEffect.cleanupPlaceholders ∈
      handleFailApplicationEvent (newApplication "app01" "root.q" "test-user" []) [] := by
  decide

/-- C9 (amended): for every Fail event whose argument list cannot be parsed
into the expected single message string, the callback logs and returns having
requested only the placeholder cleanup (which is issued unconditionally
before argument parsing); no per-task warning notifications are emitted, and
the state transition to Failed still completes. -/
theorem c9_amended_no_warnings_on_malformed_args (app : App) (args : List EventArg)
    (h : getEventArgsAsStrings 1 args = none) :
    handleFailApplicationEvent app args = [CbEffect.cleanupPlaceholders] ∧
    (∀ t : Task, CbEffect.appFailedWarning t ∉ handleFailApplicationEvent app args) ∧
    (∀ s : AppState, ∀ d : AppState,
      fsmLookup s AppEventType.FailApplication = some d →
        d = AppState.Failed ∧ handle s AppEventType.FailApplication = (AppState.Failed, none)) := by
  have he : handleFailApplicationEvent app args = [CbEffect.cleanupPlaceholders] := by
    unfold handleFailApplicationEvent
    rw [h]
  refine ⟨he, ?_, by decide⟩
  intro t hmem
  rw [he] at hmem
  simp at hmem

/-- Witness for C9 (amended): a non-string argument fails parsing and the
callback produces exactly the cleanup request. -/
theorem c9_amended_no_warnings_on_malformed_args_witness :
    getEventArgsAsStrings 1 [EventArg.other] = none ∧
    handleFailApplicationEvent appReserving [EventArg.other] = [CbEffect.cleanupPlaceholders] :=
  ⟨by decide,
   (c9_amended_no_warnings_on_malformed_args appReserving [EventArg.other] (by decide)).1⟩

/-- C10: the scheduler update request built by the Recover callback carries
the identifier, queue, partition, user, tags and the timeout converted to
milliseconds, but never the accumulated placeholder ask (it differs from the
Submit request exactly by dropping the ask), whereas the Submit request
always includes the accumulated placeholder ask. -/
theorem c10_recover_request_omits_placeholder_ask (app : App) :
    recoverRequest app = { submitRequest app with placeholderAsk := none } ∧
    (recoverRequest app).placeholderAsk = none ∧
    (submitRequest app).placeholderAsk = app.placeholderAsk ∧
    (recoverRequest app).applicationID = app.applicationID ∧
    (recoverRequest app).queueName = app.queue ∧
    (recoverRequest app).partitionName = app.partition ∧
    (recoverRequest app).user = app.user ∧
    (recoverRequest app).tags = app.tags ∧
    (recoverRequest app).executionTimeoutMilliSeconds = app.placeholderTimeoutInSec * 1000 :=
  ⟨rfl, rfl, rfl, rfl, rfl, rfl, rfl, rfl, rfl⟩

end YuniKorn
